import Mathlib

/-
  Verification of the action registry and dispatch engine of lib/action.js.

  The module resolves a human-readable command string against an ordered
  list of (pattern, handler) pairs, runs the first handler whose pattern
  matches, and reports failures under a uniform error contract.  The
  embedding below mirrors that file: the four regular expressions are
  embedded as syntax trees together with a backtracking matcher that
  implements the JavaScript semantics they rely on (ordered alternation,
  greedy option, greedy dot-plus, numbered captures, the case-insensitive
  flag); the handlers are pure functions from an injected page-capability
  environment to the ordered list of observable calls they make plus an
  ok/error outcome.
-/

namespace Pa11yAction

/-- The JavaScript regular expressions used by the action table, as a small
syntax tree: string literals (matched case-insensitively, mirroring the i
flag on every action pattern), the greedy one-or-more wildcard for a
parenthesised dot-plus, sequencing, ordered alternation, the greedy
option, and numbered capture groups. -/
inductive RE where
  | lit (s : String)
  | dotPlus
  | seq (a b : RE)
  | alt (a b : RE)
  | opt (a : RE)
  | grp (i : Nat) (a : RE)

/-- Capture list of a match: group index paired with the captured text.
A group that did not participate in the match has no entry. -/
abbrev Caps := List (Nat × String)

/-- The JavaScript dot matches any character except a line terminator. -/
def jsDot (c : Char) : Bool :=
  !(c == '\n' || c == '\r' || c == Char.ofNat 0x2028 || c == Char.ofNat 0x2029)

/-- Match a literal pattern case-insensitively against a prefix of the
input, returning the remaining input on success. -/
def litMatch : List Char → List Char → Option (List Char)
  | [], s => some s
  | _ :: _, [] => none
  | p :: ps, c :: cs => if c.toLower == p.toLower then litMatch ps cs else none

/-- The remainders reachable by a greedy dot-plus: consume one or more
dot-matching characters, longest consumption first, the order in which a
backtracking greedy quantifier offers them to the rest of the pattern. -/
def dotPlusSuffixes : List Char → List (List Char)
  | [] => []
  | c :: cs => if jsDot c then dotPlusSuffixes cs ++ [cs] else []

/-- First successful result of f over the list, in list order. -/
def firstSome : List α → (α → Option β) → Option β
  | [], _ => none
  | x :: xs, f =>
    match f x with
    | some b => some b
    | none => firstSome xs f

/-- Backtracking matcher in continuation-passing style implementing the
JavaScript regular-expression semantics the action patterns rely on:
alternatives are tried left to right, option and dot-plus are greedy but
give back on continuation failure, and a capture is recorded exactly when
its group participates in the overall match. -/
def reMatch : RE → List Char → Caps → (List Char → Caps → Option Caps) → Option Caps
  | .lit p, s, caps, k =>
    match litMatch p.data s with
    | some s' => k s' caps
    | none => none
  | .dotPlus, s, caps, k => firstSome (dotPlusSuffixes s) (fun s' => k s' caps)
  | .seq a b, s, caps, k => reMatch a s caps (fun s' caps' => reMatch b s' caps' k)
  | .alt a b, s, caps, k =>
    match reMatch a s caps k with
    | some res => some res
    | none => reMatch b s caps k
  | .opt a, s, caps, k =>
    match reMatch a s caps k with
    | some res => some res
    | none => k s caps
  | .grp i a, s, caps, k =>
    reMatch a s caps (fun s' caps' =>
      k s' ((i, String.mk (s.take (s.length - s'.length))) :: caps'))

/-- Anchored match of a whole command string.  Every pattern in the action
table is anchored at both ends, so the anchors are folded into the
matcher: the match starts at the beginning and must consume the whole
string.  Returns the capture list on success, mirroring
String.prototype.match (whose slot 0, the whole match, no handler reads). -/
def strMatch (re : RE) (s : String) : Option Caps :=
  reMatch re s.data [] (fun s' caps => if s'.isEmpty then some caps else none)

/-- RegExp.prototype.test for an anchored action pattern. -/
def test (re : RE) (s : String) : Bool :=
  (strMatch re s).isSome

/-- Index into a JavaScript match result: matches[i] is the text of capture
group i, or undefined (none) when the group did not participate. -/
def capGet (m : Option Caps) (i : Nat) : Option String :=
  match m with
  | none => none
  | some caps => (caps.find? (fun e => e.1 == i)).map (fun e => e.2)

/-- What a handler receives as its matches argument. -/
abbrev Matches := Nat → Option String

/-- JavaScript template-literal coercion of a possibly-undefined value. -/
def jsTemplate (v : Option String) : String :=
  match v with
  | some s => s
  | none => "undefined"

/-- A JavaScript error value: its message, plus an identity tag so that
distinct error objects with equal messages stay distinguishable.  Errors
the action code itself constructs with new Error carry tag 0. -/
structure JsError where
  message : String
  id : Nat := 0
deriving DecidableEq, Repr

/-- Result of an awaited handler or page primitive. -/
abbrev Outcome := Except JsError Unit

instance : DecidableEq Outcome := fun a b =>
  match a, b with
  | .ok (), .ok () => isTrue rfl
  | .ok (), .error _ => isFalse (by simp)
  | .error _, .ok () => isFalse (by simp)
  | .error x, .error y =>
    if h : x = y then isTrue (by rw [h]) else isFalse (by simp [h])

/-- The injected page capabilities (the Puppeteer page object): each
primitive resolves or rejects with an error value of its own. -/
structure Env where
  click : String → Outcome
  focus : String → Outcome
  type : String → Outcome
  evaluate : String → Bool → Outcome
  waitForFunction : String → String → Bool → Outcome

/-- The observable calls a dispatch makes, in order: debug log lines and
page-primitive invocations with the arguments they were given.  The type
event carries only the typed text: page.type is called with the value
alone, no target argument. -/
inductive Event where
  | log (message : String)
  | click (selector : String)
  | focus (selector : String)
  | type (text : String)
  | evaluate (selector : String) (checked : Bool)
  | waitForFunction (property : String) (expectedValue : String) (negated : Bool)
deriving DecidableEq, Repr

/-- The remapped failure message shared by the click, set and check
actions. -/
def failedSelector (selector : String) : String :=
  "Failed action: no element matching selector \"" ++ selector ++ "\""

/-- Pattern of click-element: click( element)? (.+), anchored, flag i. -/
def clickElementMatch : RE :=
  .seq (.lit "click")
    (.seq (.opt (.grp 1 (.lit " element")))
      (.seq (.lit " ") (.grp 2 .dotPlus)))

/-- Handler of click-element: click the captured selector; any failure of
the click primitive is caught and replaced by a new error with the
remapped selector message. -/
def clickElementRun (env : Env) («matches» : Matches) : List Event × Outcome :=
  let selector := jsTemplate («matches» 2)
  match env.click selector with
  | .ok _ => ([Event.click selector], .ok ())
  | .error _ => ([Event.click selector], .error { message := failedSelector selector })

/-- Pattern of set-field-value: set( field)? (.+) to (.+), anchored, flag i. -/
def setFieldValueMatch : RE :=
  .seq (.lit "set")
    (.seq (.opt (.grp 1 (.lit " field")))
      (.seq (.lit " ")
        (.seq (.grp 2 .dotPlus)
          (.seq (.lit " to ") (.grp 3 .dotPlus)))))

/-- Handler of set-field-value: focus the captured selector, then type the
captured value (page.type receives the value only); a failure of either
awaited step is caught and replaced by a new error with the remapped
selector message, and a focus failure prevents the type call. -/
def setFieldValueRun (env : Env) («matches» : Matches) : List Event × Outcome :=
  let selector := jsTemplate («matches» 2)
  let value := jsTemplate («matches» 3)
  match env.focus selector with
  | .error _ => ([Event.focus selector], .error { message := failedSelector selector })
  | .ok _ =>
    match env.type value with
    | .error _ =>
      ([Event.focus selector, Event.type value], .error { message := failedSelector selector })
    | .ok _ => ([Event.focus selector, Event.type value], .ok ())

/-- Pattern of check-field: (check|uncheck)( field)? (.+), anchored, flag i. -/
def checkFieldMatch : RE :=
  .seq (.grp 1 (.alt (.lit "check") (.lit "uncheck")))
    (.seq (.opt (.grp 2 (.lit " field")))
      (.seq (.lit " ") (.grp 3 .dotPlus)))

/-- Handler of check-field: evaluate the in-page mutation with the captured
selector and the boolean matches[1] !== 'uncheck' (a case-sensitive
comparison of the captured keyword against the lowercase literal); any
failure of the evaluate primitive is caught and replaced by a new error
with the remapped selector message. -/
def checkFieldRun (env : Env) («matches» : Matches) : List Event × Outcome :=
  let checked : Bool := «matches» 1 != some "uncheck"
  let selector := jsTemplate («matches» 3)
  match env.evaluate selector checked with
  | .ok _ => ([Event.evaluate selector checked], .ok ())
  | .error _ => ([Event.evaluate selector checked], .error { message := failedSelector selector })

/-- Pattern of wait-for-url:
wait for (fragment|hash|path|url)( to (not )?be)? (.+), anchored, flag i. -/
def waitForUrlMatch : RE :=
  .seq (.lit "wait for ")
    (.seq (.grp 1 (.alt (.lit "fragment") (.alt (.lit "hash") (.alt (.lit "path") (.lit "url")))))
      (.seq (.opt (.grp 2 (.seq (.lit " to ") (.seq (.opt (.grp 3 (.lit "not "))) (.lit "be")))))
        (.seq (.lit " ") (.grp 4 .dotPlus))))

/-- The switch on the captured subject keyword: fragment and hash poll the
location hash, path polls the pathname, and everything else (the url case)
falls to the default, the full href. -/
def waitSubjectProperty (subject : Option String) : String :=
  match subject with
  | some "fragment" => "hash"
  | some "hash" => "hash"
  | some "path" => "pathname"
  | _ => "href"

/-- Handler of wait-for-url: poll the location property selected by the
captured subject until the in-page predicate holds; negation is the
presence of capture 3 (matches[3] !== undefined).  No try/catch: a failure
of the wait primitive propagates as-is. -/
def waitForUrlRun (env : Env) («matches» : Matches) : List Event × Outcome :=
  let expectedValue := jsTemplate («matches» 4)
  let negated : Bool := («matches» 3).isSome
  let property := waitSubjectProperty («matches» 1)
  match env.waitForFunction property expectedValue negated with
  | .ok _ => ([Event.waitForFunction property expectedValue negated], .ok ())
  | .error e => ([Event.waitForFunction property expectedValue negated], .error e)

/-- The in-page predicate wait-for-url installs: compare the current value
of the chosen location property against the expected value, with strict
inequality when negated and strict equality otherwise.  The current page
location is abstracted as a map from property name to its value. -/
def waitForUrlPredicate (location : String → String) (property expectedValue : String)
    (negated : Bool) : Bool :=
  if negated then location property != expectedValue
  else location property == expectedValue

/-- One entry of the action table: its name, its pattern, and its handler. -/
structure ActionDef where
  name : String
  «match» : RE
  run : Env → Matches → List Event × Outcome

/-- The click-element table entry. -/
def clickElement : ActionDef :=
  { name := "click-element", «match» := clickElementMatch, run := clickElementRun }

/-- The set-field-value table entry. -/
def setFieldValue : ActionDef :=
  { name := "set-field-value", «match» := setFieldValueMatch, run := setFieldValueRun }

/-- The check-field table entry. -/
def checkField : ActionDef :=
  { name := "check-field", «match» := checkFieldMatch, run := checkFieldRun }

/-- The wait-for-url table entry. -/
def waitForUrl : ActionDef :=
  { name := "wait-for-url", «match» := waitForUrlMatch, run := waitForUrlRun }

/-- module.exports.actions: the registry, in registration order. -/
def actions : List ActionDef := [clickElement, setFieldValue, checkField, waitForUrl]

/-- runAction: find the first action whose pattern tests true against the
action string; if none, throw the unresolved error before any logging;
otherwise log the opening debug line, run the handler on the captures
obtained by re-applying the winning pattern, and log the completion line
only when the handler succeeded.  A handler failure propagates untouched.
The registry is an explicit argument (the source reads the mutable
module.exports.actions, replaceable by the host). -/
def runAction (env : Env) (actions : List ActionDef) (actionString : String) :
    List Event × Outcome :=
  match actions.find? (fun foundAction => test foundAction.«match» actionString) with
  | none =>
    ([], .error { message := "Failed action: \"" ++ actionString ++ "\" cannot be resolved" })
  | some action =>
    let result := action.run env (capGet (strMatch action.«match» actionString))
    (Event.log ("Running action: " ++ actionString) ::
      result.1 ++
        (match result.2 with
          | .ok _ => [Event.log "  ✔︎ action complete"]
          | .error _ => []),
      result.2)

/-- isValidAction: true exactly when some registered pattern tests true
against the action string; a total function of its arguments. -/
def isValidAction (actions : List ActionDef) (actionString : String) : Bool :=
  actions.any (fun foundAction => test foundAction.«match» actionString)

/-- An environment in which every page primitive resolves. -/
def envAllOk : Env :=
  { click := fun _ => .ok ()
    focus := fun _ => .ok ()
    type := fun _ => .ok ()
    evaluate := fun _ _ => .ok ()
    waitForFunction := fun _ _ _ => .ok () }


/-- An environment in which every page primitive rejects with the same
arbitrary error. -/
def envAllFail : Env :=
  { click := fun _ => .error { message := "boom", id := 7 }
    focus := fun _ => .error { message := "boom", id := 7 }
    type := fun _ => .error { message := "boom", id := 7 }
    evaluate := fun _ _ => .error { message := "boom", id := 7 }
    waitForFunction := fun _ _ _ => .error { message := "boom", id := 7 } }

/-- An environment in which only the type primitive rejects. -/
def envTypeFail : Env :=
  { envAllOk with type := fun _ => .error { message := "boom", id := 7 } }

/-- An environment in which only the wait primitive rejects, with an error
carrying its own identity. -/
def envWaitFail : Env :=
  { envAllOk with waitForFunction := fun _ _ _ => .error { message := "timeout", id := 42 } }

/-- find? lands on the first element satisfying the predicate: everything
before it fails the predicate, and everything after it is ignored. -/
lemma find?_first (p : α → Bool) (l₁ l₂ : List α) (a : α)
    (h₁ : ∀ b ∈ l₁, p b = false) (h₂ : p a = true) :
    (l₁ ++ a :: l₂).find? p = some a := by
  induction l₁ with
  | nil => simp [List.find?, h₂]
  | cons x xs ih =>
    have hx := h₁ x (by simp)
    simp only [List.cons_append, List.find?, hx]
    exact ih (fun b hb => h₁ b (by simp [hb]))

/-- The trace of the wait-for-url handler is the single wait call, whatever
the outcome of the wait primitive. -/
lemma waitForUrlRun_fst (env : Env) (m : Matches) :
    (waitForUrlRun env m).1 =
      [Event.waitForFunction (waitSubjectProperty (m 1)) (jsTemplate (m 4)) (m 3).isSome] := by
  simp only [waitForUrlRun]
  cases env.waitForFunction (waitSubjectProperty (m 1)) (jsTemplate (m 4)) (m 3).isSome <;> rfl

/-- C1: a command string matching no registered pattern makes runAction
fail with the exact message Failed action: "commandString" cannot be
resolved, with an empty trace: no handler ran and no debug line was
logged. -/
theorem runAction_unresolved (env : Env) (acts : List ActionDef) (s : String)
    (h : ∀ a ∈ acts, test a.«match» s = false) :
    runAction env acts s =
      ([], .error { message := "Failed action: \"" ++ s ++ "\" cannot be resolved" }) := by
  unfold runAction
  rw [List.find?_eq_none.mpr (fun a ha => by simp [h a ha])]

/-- Witness for C1 at a concrete command and the real registry. -/
theorem runAction_unresolved_witness :
    (∀ a ∈ actions, test a.«match» "frobnicate the widget" = false) ∧
    runAction envAllOk actions "frobnicate the widget" =
      ([], .error { message := "Failed action: \"frobnicate the widget\" cannot be resolved" }) :=
  ⟨by decide, runAction_unresolved envAllOk actions _ (by decide)⟩

/-- C2: when the registry splits as earlier entries that all fail to match,
a matching entry a, and arbitrary later entries, runAction runs exactly a,
on the captures obtained by re-applying a's own pattern to the command
string; the later entries, matching or not, never run. -/
theorem runAction_first_match (env : Env) (acts₁ acts₂ : List ActionDef) (a : ActionDef)
    (s : String) (h₁ : ∀ b ∈ acts₁, test b.«match» s = false)
    (h₂ : test a.«match» s = true) :
    runAction env (acts₁ ++ a :: acts₂) s =
      (Event.log ("Running action: " ++ s) ::
        (a.run env (capGet (strMatch a.«match» s))).1 ++
          (match (a.run env (capGet (strMatch a.«match» s))).2 with
            | .ok _ => [Event.log "  ✔︎ action complete"]
            | .error _ => []),
        (a.run env (capGet (strMatch a.«match» s))).2) := by
  unfold runAction
  rw [find?_first _ _ _ _ h₁ h₂]

/-- Witness for C2: the check-field entry wins over the two entries before
it, and the wait-for-url entry after it would also not have matched;
registry order, not anything else, picked it. -/
theorem runAction_first_match_witness :
    runAction envAllOk ([clickElement, setFieldValue] ++ checkField :: [waitForUrl]) "check .x" =
      ([Event.log "Running action: check .x", Event.evaluate ".x" true,
        Event.log "  ✔︎ action complete"], .ok ()) := by
  rw [runAction_first_match envAllOk [clickElement, setFieldValue] [waitForUrl]
    checkField "check .x" (by decide) (by decide)]
  rfl

/-- C4: the captured subject keyword selects the polled location property:
fragment and hash poll the hash, path polls the pathname, and url polls
the href through the default switch case. -/
theorem waitForUrl_property_mapping (env : Env) (m : Matches) :
    (m 1 = some "fragment" →
      (waitForUrlRun env m).1 =
        [Event.waitForFunction "hash" (jsTemplate (m 4)) (m 3).isSome])
  ∧ (m 1 = some "hash" →
      (waitForUrlRun env m).1 =
        [Event.waitForFunction "hash" (jsTemplate (m 4)) (m 3).isSome])
  ∧ (m 1 = some "path" →
      (waitForUrlRun env m).1 =
        [Event.waitForFunction "pathname" (jsTemplate (m 4)) (m 3).isSome])
  ∧ (m 1 = some "url" →
      (waitForUrlRun env m).1 =
        [Event.waitForFunction "href" (jsTemplate (m 4)) (m 3).isSome]) := by
  refine ⟨?_, ?_, ?_, ?_⟩ <;> intro h1 <;> rw [waitForUrlRun_fst, h1] <;> rfl

/-- Witness for C4 on the spec's own example command and on a url command,
with captures computed by the real pattern. -/
theorem waitForUrl_property_mapping_witness :
    (waitForUrlRun envAllOk (capGet (strMatch waitForUrlMatch "wait for path to not be /login"))).1 =
      [Event.waitForFunction "pathname"
        (jsTemplate (capGet (strMatch waitForUrlMatch "wait for path to not be /login") 4))
        (capGet (strMatch waitForUrlMatch "wait for path to not be /login") 3).isSome]
  ∧ (waitForUrlRun envAllOk (capGet (strMatch waitForUrlMatch "wait for url to be x"))).1 =
      [Event.waitForFunction "href"
        (jsTemplate (capGet (strMatch waitForUrlMatch "wait for url to be x") 4))
        (capGet (strMatch waitForUrlMatch "wait for url to be x") 3).isSome] :=
  ⟨(waitForUrl_property_mapping envAllOk _).2.2.1 rfl,
   (waitForUrl_property_mapping envAllOk _).2.2.2 rfl⟩

/-- C5: any rejection of the click primitive, or of either step of
set-field-value, is replaced by a fresh error (tag 0) whose message is
exactly the remapped selector message; the incoming error e, whatever its
message or identity, is discarded. -/
theorem selector_error_translation (env : Env) (m : Matches) (e : JsError) :
    (env.click (jsTemplate (m 2)) = .error e →
      clickElementRun env m =
        ([Event.click (jsTemplate (m 2))],
          .error { message := failedSelector (jsTemplate (m 2)) }))
  ∧ (env.focus (jsTemplate (m 2)) = .error e →
      setFieldValueRun env m =
        ([Event.focus (jsTemplate (m 2))],
          .error { message := failedSelector (jsTemplate (m 2)) }))
  ∧ (env.focus (jsTemplate (m 2)) = .ok () → env.type (jsTemplate (m 3)) = .error e →
      setFieldValueRun env m =
        ([Event.focus (jsTemplate (m 2)), Event.type (jsTemplate (m 3))],
          .error { message := failedSelector (jsTemplate (m 2)) })) := by
  refine ⟨?_, ?_, ?_⟩
  · intro h; simp only [clickElementRun, h]
  · intro h; simp only [setFieldValueRun, h]
  · intro h1 h2; simp only [setFieldValueRun, h1, h2]

/-- Witness for C5: a failing click is remapped, and a failing type after a
successful focus is remapped to the message naming the selector, not the
value. -/
theorem selector_error_translation_witness :
    clickElementRun envAllFail (capGet (strMatch clickElementMatch "click .foo")) =
      ([Event.click (jsTemplate (capGet (strMatch clickElementMatch "click .foo") 2))],
        .error ⟨failedSelector (jsTemplate (capGet (strMatch clickElementMatch "click .foo") 2)), 0⟩)
  ∧ setFieldValueRun envTypeFail (capGet (strMatch setFieldValueMatch "set field .user to alice")) =
      ([Event.focus (jsTemplate (capGet (strMatch setFieldValueMatch "set field .user to alice") 2)),
        Event.type (jsTemplate (capGet (strMatch setFieldValueMatch "set field .user to alice") 3))],
        .error ⟨failedSelector (jsTemplate (capGet (strMatch setFieldValueMatch "set field .user to alice") 2)), 0⟩) :=
  ⟨(selector_error_translation envAllFail _ { message := "boom", id := 7 }).1 rfl,
   (selector_error_translation envTypeFail _ { message := "boom", id := 7 }).2.2 rfl rfl⟩

/-- C6: a rejecting handler makes runAction reject with the very same error
value, unwrapped; and the wait-for-url handler itself passes a failure of
the wait primitive through untouched, identity tag included. -/
theorem runAction_error_propagation (env : Env) (acts : List ActionDef) (s : String)
    (a : ActionDef) (ev : List Event) (e : JsError) (m : Matches)
    (hf : acts.find? (fun x => test x.«match» s) = some a)
    (hr : a.run env (capGet (strMatch a.«match» s)) = (ev, .error e)) :
    runAction env acts s = (Event.log ("Running action: " ++ s) :: ev, .error e)
  ∧ (env.waitForFunction (waitSubjectProperty (m 1)) (jsTemplate (m 4)) (m 3).isSome = .error e →
      waitForUrlRun env m =
        ([Event.waitForFunction (waitSubjectProperty (m 1)) (jsTemplate (m 4)) (m 3).isSome],
          .error e)) := by
  constructor
  · simp [runAction, hf, hr]
  · intro hw; simp only [waitForUrlRun, hw]

/-- Witness for C6: a timeout error of the wait primitive, tag 42, reaches
the caller of runAction with message and tag intact. -/
theorem runAction_error_propagation_witness :
    runAction envWaitFail actions "wait for url to be https://example.com/" =
      (Event.log "Running action: wait for url to be https://example.com/" ::
        [Event.waitForFunction "href" "https://example.com/" false],
        .error { message := "timeout", id := 42 }) :=
  (runAction_error_propagation envWaitFail actions "wait for url to be https://example.com/" waitForUrl
    [Event.waitForFunction "href" "https://example.com/" false]
    { message := "timeout", id := 42 } (fun _ => none) rfl rfl).1

/-- C7: isValidAction is true exactly when some registered pattern matches
the command string.  It is a plain total function of the registry and the
string, so it cannot run a handler, has no side effects, never fails, and
equal inputs give equal results. -/
theorem isValidAction_spec (acts : List ActionDef) (s : String) :
    isValidAction acts s = true ↔ ∃ a ∈ acts, test a.«match» s = true := by
  simp [isValidAction, List.any_eq_true]

/-- C8: set-field-value focuses the captured selector first and types the
captured value (the type call carries the value only) second; when the
focus rejects, the type call never happens. -/
theorem setFieldValue_order (env : Env) (m : Matches) :
    (setFieldValueRun env m).1 =
      (match env.focus (jsTemplate (m 2)) with
        | .ok _ => [Event.focus (jsTemplate (m 2)), Event.type (jsTemplate (m 3))]
        | .error _ => [Event.focus (jsTemplate (m 2))]) := by
  simp only [setFieldValueRun]
  cases env.focus (jsTemplate (m 2)) with
  | ok u => cases env.type (jsTemplate (m 3)) <;> rfl
  | error e => rfl

/-- C9: the negation flag handed to the wait primitive is the presence of
the optional not-qualifier capture, and the in-page predicate equals the
equality of the polled value with the expected value, exclusive-or the
negation flag. -/
theorem waitForUrl_negation_predicate (env : Env) (m : Matches)
    (location : String → String) (property expectedValue : String) (negated : Bool) :
    (waitForUrlRun env m).1 =
      [Event.waitForFunction (waitSubjectProperty (m 1)) (jsTemplate (m 4)) (m 3).isSome]
  ∧ waitForUrlPredicate location property expectedValue negated =
      ((location property == expectedValue) != negated) := by
  refine ⟨waitForUrlRun_fst env m, ?_⟩
  unfold waitForUrlPredicate
  cases negated <;> simp [bne]

/-- C10: the optional qualifier groups backtrack to empty, so a command
that is just the action word plus its qualifier word still dispatches,
with the qualifier word captured as the selector: click element clicks
the selector element, and check field checks the selector field. -/
theorem qualifier_backtracking :
    isValidAction actions "click element" = true
  ∧ runAction envAllOk actions "click element" =
      ([Event.log "Running action: click element", Event.click "element",
        Event.log "  ✔︎ action complete"], .ok ())
  ∧ runAction envAllOk actions "check field" =
      ([Event.log "Running action: check field", Event.evaluate "field" true,
        Event.log "  ✔︎ action complete"], .ok ()) :=
  ⟨rfl, rfl, rfl⟩


/-- Indices of the capture groups a pattern contains. -/
def groupIdxs : RE → List Nat
  | .lit _ => []
  | .dotPlus => []
  | .seq a b => groupIdxs a ++ groupIdxs b
  | .alt a b => groupIdxs a ++ groupIdxs b
  | .opt a => groupIdxs a
  | .grp i a => i :: groupIdxs a

/-- A successful firstSome comes from some element of the list. -/
lemma firstSome_some {l : List α} {f : α → Option β} {b : β}
    (h : firstSome l f = some b) : ∃ x ∈ l, f x = some b := by
  induction l with
  | nil => simp [firstSome] at h
  | cons x xs ih =>
    simp only [firstSome] at h
    cases hx : f x with
    | some c =>
      rw [hx] at h
      exact ⟨x, by simp, by rw [hx]; exact h⟩
    | none =>
      rw [hx] at h
      obtain ⟨y, hy, hf⟩ := ih h
      exact ⟨y, by simp [hy], hf⟩

/-- A successful match reaches its continuation with the incoming capture
list as a suffix: whatever it prepends records only groups of the pattern
itself. -/
lemma reMatch_capsExtend (r : RE) (s : List Char) (caps : Caps)
    (k : List Char → Caps → Option Caps) (res : Caps)
    (h : reMatch r s caps k = some res) :
    ∃ (s' : List Char) (pre : Caps),
      (∀ e ∈ pre, e.1 ∈ groupIdxs r) ∧ k s' (pre ++ caps) = some res := by
  induction r generalizing s caps k with
  | lit p =>
    simp only [reMatch] at h
    cases hm : litMatch p.data s with
    | none => rw [hm] at h; exact absurd h (by simp)
    | some s' =>
      rw [hm] at h
      exact ⟨s', [], by simp, by simpa using h⟩
  | dotPlus =>
    simp only [reMatch] at h
    obtain ⟨s', _, hf⟩ := firstSome_some h
    exact ⟨s', [], by simp, by simpa using hf⟩
  | seq a b iha ihb =>
    simp only [reMatch] at h
    obtain ⟨s₁, pre₁, hi₁, h₁⟩ := iha _ _ _ h
    obtain ⟨s₂, pre₂, hi₂, h₂⟩ := ihb _ _ _ h₁
    refine ⟨s₂, pre₂ ++ pre₁, ?_, ?_⟩
    · intro e he
      simp only [groupIdxs, List.mem_append]
      rcases List.mem_append.mp he with h' | h'
      · exact Or.inr (hi₂ e h')
      · exact Or.inl (hi₁ e h')
    · rw [List.append_assoc]; exact h₂
  | alt a b iha ihb =>
    simp only [reMatch] at h
    cases hm : reMatch a s caps k with
    | some r₁ =>
      rw [hm] at h
      obtain rfl : r₁ = res := by injection h
      obtain ⟨s', pre, hi, hk⟩ := iha _ _ _ hm
      exact ⟨s', pre, fun e he => by
        simp only [groupIdxs, List.mem_append]; exact Or.inl (hi e he), hk⟩
    | none =>
      rw [hm] at h
      obtain ⟨s', pre, hi, hk⟩ := ihb _ _ _ h
      exact ⟨s', pre, fun e he => by
        simp only [groupIdxs, List.mem_append]; exact Or.inr (hi e he), hk⟩
  | opt a iha =>
    simp only [reMatch] at h
    cases hm : reMatch a s caps k with
    | some r₁ =>
      rw [hm] at h
      obtain rfl : r₁ = res := by injection h
      obtain ⟨s', pre, hi, hk⟩ := iha _ _ _ hm
      exact ⟨s', pre, hi, hk⟩
    | none =>
      rw [hm] at h
      exact ⟨s, [], by simp, by simpa using h⟩
  | grp i a iha =>
    simp only [reMatch] at h
    obtain ⟨s', pre, hi, hk⟩ := iha _ _ _ h
    refine ⟨s', (i, String.mk (s.take (s.length - s'.length))) :: pre, ?_, ?_⟩
    · intro e he
      simp only [groupIdxs, List.mem_cons]
      rcases List.mem_cons.mp he with h' | h'
      · exact Or.inl (by rw [h'])
      · exact Or.inr (hi e h')
    · simpa using hk

/-- A literal consumes itself from the front of the input. -/
lemma litMatch_self (p t : List Char) : litMatch p (p ++ t) = some t := by
  induction p with
  | nil => rfl
  | cons c cs ih => simp [litMatch, ih]

/-- find? skips a block in which every element fails the predicate. -/
lemma find?_append_left_none {l₁ l₂ : List (Nat × String)} {p : Nat × String → Bool}
    (h : ∀ e ∈ l₁, p e = false) : (l₁ ++ l₂).find? p = l₂.find? p := by
  rw [List.find?_append, List.find?_eq_none.mpr (fun x hx => by simp [h x hx])]
  rfl

/-- On an input starting with the word uncheck, the keyword alternation of
the check-field pattern takes its second branch (the first fails on the
first character) and consumes exactly that word. -/
lemma checkAlt_uncheck (t : List Char) (caps : Caps)
    (k' : List Char → Caps → Option Caps) :
    reMatch (.alt (.lit "check") (.lit "uncheck")) ("uncheck".data ++ t) caps k' =
      k' t caps := by
  simp only [reMatch, show litMatch "check".data ("uncheck".data ++ t) = none from rfl,
    litMatch_self]

/-- On an input starting with the word check, the keyword alternation of
the check-field pattern can only use its first branch (the second fails on
the first character), consuming exactly that word. -/
lemma checkAlt_check (t : List Char) (caps : Caps)
    (k' : List Char → Caps → Option Caps) :
    reMatch (.alt (.lit "check") (.lit "uncheck")) ("check".data ++ t) caps k' =
      k' t caps := by
  simp only [reMatch, litMatch_self]
  cases hk : k' t caps with
  | some r => rfl
  | none =>
    simp only [show litMatch "uncheck".data ("check".data ++ t) = none from rfl]


/-- A capture group whose body consumes exactly the prefix u records u as
its capture. -/
lemma reMatch_grp_of (i : Nat) (a : RE) (u t : List Char) (caps : Caps)
    (k : List Char → Caps → Option Caps)
    (h : ∀ k', reMatch a (u ++ t) caps k' = k' t caps) :
    reMatch (.grp i a) (u ++ t) caps k = k t ((i, String.mk u) :: caps) := by
  simp only [reMatch]
  rw [h]
  have h1 : (u ++ t).length - t.length = u.length := by
    simp [List.length_append]
  rw [h1, List.take_left]

/-- The winning capture list of the check-field pattern on an input
starting with the lowercase word uncheck holds exactly that word as
capture 1: the remaining groups of the pattern carry indices 2 and 3 and
cannot shadow it. -/
lemma checkField_capGet_uncheck (t : String) (caps : Caps)
    (h : strMatch checkFieldMatch ("uncheck" ++ t) = some caps) :
    capGet (some caps) 1 = some "uncheck" := by
  have h1 : reMatch (.grp 1 (.alt (.lit "check") (.lit "uncheck")))
      ("uncheck".data ++ t.data) []
      (fun s' caps' =>
        reMatch (.seq (.opt (.grp 2 (.lit " field"))) (.seq (.lit " ") (.grp 3 .dotPlus)))
          s' caps' (fun s'' caps'' => if s''.isEmpty then some caps'' else none)) =
      some caps := h
  rw [reMatch_grp_of 1 _ "uncheck".data t.data [] _
    (fun k' => checkAlt_uncheck t.data [] k')] at h1
  have h2 : reMatch (.seq (.opt (.grp 2 (.lit " field"))) (.seq (.lit " ") (.grp 3 .dotPlus)))
      t.data [(1, "uncheck")]
      (fun s'' caps'' => if s''.isEmpty then some caps'' else none) = some caps := h1
  obtain ⟨s', pre, hi, hk⟩ := reMatch_capsExtend _ _ _ _ _ h2
  cases s' with
  | cons c cs => simp at hk
  | nil =>
    simp only [List.isEmpty_nil, if_true] at hk
    obtain rfl : pre ++ [(1, "uncheck")] = caps := by injection hk
    have hskip : ∀ e ∈ pre, (e.1 == 1) = false := by
      intro e he
      have hmem := hi e he
      simp only [groupIdxs, List.mem_append, List.mem_cons, List.not_mem_nil] at hmem
      rcases hmem with h2 | h3 <;> simp_all
    simp only [capGet, find?_append_left_none hskip]
    rfl

/-- The winning capture list of the check-field pattern on an input
starting with the lowercase word check holds exactly that word as
capture 1. -/
lemma checkField_capGet_check (t : String) (caps : Caps)
    (h : strMatch checkFieldMatch ("check" ++ t) = some caps) :
    capGet (some caps) 1 = some "check" := by
  have h1 : reMatch (.grp 1 (.alt (.lit "check") (.lit "uncheck")))
      ("check".data ++ t.data) []
      (fun s' caps' =>
        reMatch (.seq (.opt (.grp 2 (.lit " field"))) (.seq (.lit " ") (.grp 3 .dotPlus)))
          s' caps' (fun s'' caps'' => if s''.isEmpty then some caps'' else none)) =
      some caps := h
  rw [reMatch_grp_of 1 _ "check".data t.data [] _
    (fun k' => checkAlt_check t.data [] k')] at h1
  have h2 : reMatch (.seq (.opt (.grp 2 (.lit " field"))) (.seq (.lit " ") (.grp 3 .dotPlus)))
      t.data [(1, "check")]
      (fun s'' caps'' => if s''.isEmpty then some caps'' else none) = some caps := h1
  obtain ⟨s', pre, hi, hk⟩ := reMatch_capsExtend _ _ _ _ _ h2
  cases s' with
  | cons c cs => simp at hk
  | nil =>
    simp only [List.isEmpty_nil, if_true] at hk
    obtain rfl : pre ++ [(1, "check")] = caps := by injection hk
    have hskip : ∀ e ∈ pre, (e.1 == 1) = false := by
      intro e he
      have hmem := hi e he
      simp only [groupIdxs, List.mem_append, List.mem_cons, List.not_mem_nil] at hmem
      rcases hmem with h2 | h3 <;> simp_all
    simp only [capGet, find?_append_left_none hskip]
    rfl

/-- The trace of the check-field handler is the single evaluate call,
whatever the outcome of the evaluate primitive. -/
lemma checkFieldRun_fst (env : Env) (m : Matches) :
    (checkFieldRun env m).1 =
      [Event.evaluate (jsTemplate (m 3)) (m 1 != some "uncheck")] := by
  simp only [checkFieldRun]
  cases env.evaluate (jsTemplate (m 3)) (m 1 != some "uncheck") <;> rfl

/-- C3 as amended: for a command string matching the check-field pattern,
the boolean handed to the in-page evaluation is driven by a case-sensitive
comparison of the captured keyword with the lowercase literal uncheck: a
command beginning with the lowercase word uncheck yields checked false,
and one beginning with the lowercase word check yields checked true, in
both cases on the selector captured after the optional field qualifier.
Other letter cases of uncheck are NOT honoured (see the counterexample). -/
theorem checkField_keyword (env : Env) (s : String) (caps : Caps)
    (h : strMatch checkFieldMatch s = some caps) :
    ((∃ t, s = "uncheck" ++ t) →
      (checkFieldRun env (capGet (some caps))).1 =
        [Event.evaluate (jsTemplate (capGet (some caps) 3)) false])
  ∧ ((∃ t, s = "check" ++ t) →
      (checkFieldRun env (capGet (some caps))).1 =
        [Event.evaluate (jsTemplate (capGet (some caps) 3)) true]) := by
  constructor
  · rintro ⟨t, rfl⟩
    have h1 := checkField_capGet_uncheck t caps h
    rw [checkFieldRun_fst, h1]
    rfl
  · rintro ⟨t, rfl⟩
    have h1 := checkField_capGet_check t caps h
    rw [checkFieldRun_fst, h1]
    rfl

/-- Counterexample to C3 as frozen: the pattern matches the uppercase
command UNCHECK field .agree (the match flag is case-insensitive), but the
keyword comparison in the handler is case-sensitive, so the dispatch sets
checked to true where the claim requires false. -/
theorem checkField_case_counterexample :
    test checkFieldMatch "UNCHECK field .agree" = true
  ∧ runAction envAllOk actions "UNCHECK field .agree" =
      ([Event.log "Running action: UNCHECK field .agree",
        Event.evaluate ".agree" true,
        Event.log "  ✔︎ action complete"], .ok ()) :=
  ⟨rfl, rfl⟩

/-- Witness for the amended C3 on the spec's own example command. -/
theorem checkField_keyword_witness :
    (checkFieldRun envAllOk (capGet (strMatch checkFieldMatch "uncheck field .agree"))).1 =
      [Event.evaluate
        (jsTemplate (capGet (strMatch checkFieldMatch "uncheck field .agree") 3)) false] := by
  have h : strMatch checkFieldMatch "uncheck field .agree" =
      some [(3, ".agree"), (2, " field"), (1, "uncheck")] := rfl
  rw [h]
  exact (checkField_keyword envAllOk _ _ h).1 ⟨" field .agree", rfl⟩

end Pa11yAction
